import Mathlib

/-!
Verification development for the agentify backend.

Shallow embeddings of the backend components that the verified properties
concern:

* the research pipeline quota accounting of
  `backend/agents/fourthagent/ai-researcher-improved.py`
  (`AIResearcherAgent._retry_with_backoff`, the five workflow nodes, and
  `research`);
* the autonomous agent step loop of `backend/agents/third_agent.py`
  (`AutonomousAgent.chat`, `_validate_action_choice`, `_get_correct_action`);
* the sandboxed tool registry of `backend/security/tool_registry.py`
  (`ToolValidator.validate_code`, `SecureToolRegistry.register_tool`);
* the blog CRUD routes of `backend/api/blog_routes.py`
  (`create_blog_post`, `get_blog_posts`, `get_blog_post`) together with
  `generate_slug` of `backend/database/database.py`;
* the chunked streaming helper `stream_text_response` of `backend/main.py`.

Python strings are modelled as Lean `String` (or `List Char` where the
functions are character-by-character), machine integers as `Nat`, dicts
iterated in insertion order as `List`, and exceptions as `Except`.
External effects (LLM calls, HTTP, the filesystem) are modelled as oracle
parameters supplying their observable outcomes.
-/

namespace Agentify

/-! ### Shared string helpers

Python `needle in hay` on strings is substring containment, and `s.lower()`
is character-wise lowercasing. -/

/-- Embedding of the Python substring test `needle in hay`. -/
def containsSub (hay needle : String) : Bool :=
  decide (needle.data <:+: hay.data)

/-- Embedding of Python `s.lower()` (character-wise, ASCII-faithful). -/
def pyLower (s : String) : String :=
  ⟨s.data.map Char.toLower⟩

/-! ### Research pipeline quota accounting
(`AIResearcherAgent` in `backend/agents/fourthagent/ai-researcher-improved.py`)

`_retry_with_backoff(func, *args, max_retries=5, ...)` runs
`for attempt in range(max_retries)`; each iteration first checks
`self.api_call_count >= self.max_api_calls` and raises `ResourceExhausted`
before the call, otherwise increments `api_call_count` and invokes `func`.
A `ResourceExhausted` from `func` is re-raised on the last attempt and
otherwise retried after a backoff sleep (the sleep has no effect on the
counter and is dropped); any other exception propagates at once. -/

/-- Outcome of one underlying API call attempted inside
`_retry_with_backoff`: success, a `ResourceExhausted` error (retried), or
any other exception (propagated). -/
inductive CallOutcome
  | ok
  | exhausted
  | err
  deriving DecidableEq

/-- How one `_retry_with_backoff` invocation ends. -/
inductive RetryResult
  | success
  | quotaReached
  | resourceExhausted
  | otherError
  | maxRetriesReached
  deriving DecidableEq

/-- Embedding of the `for attempt in range(max_retries)` loop of
`_retry_with_backoff`.  `fuel` is the number of attempts still allowed,
`attempt` the Python loop index, `count` the current `api_call_count`;
`outcome` reports what the wrapped call does on each attempt.  Returns the
final `api_call_count` and how the invocation ended. -/
def retryGo (maxApiCalls : Nat) (outcome : Nat → CallOutcome) :
    Nat → Nat → Nat → Nat × RetryResult
  | 0, _, count => (count, .maxRetriesReached)
  | fuel + 1, attempt, count =>
    if maxApiCalls ≤ count then
      (count, .quotaReached)
    else
      match outcome attempt with
      | .ok => (count + 1, .success)
      | .err => (count + 1, .otherError)
      | .exhausted =>
        if fuel = 0 then
          (count + 1, .resourceExhausted)
        else
          retryGo maxApiCalls outcome fuel (attempt + 1) (count + 1)

/-- Embedding of `_retry_with_backoff` with its default `max_retries=5`,
acting on the agent field `api_call_count`. -/
def retryWithBackoff (maxApiCalls : Nat) (outcome : Nat → CallOutcome)
    (count : Nat) : Nat × RetryResult :=
  retryGo maxApiCalls outcome 5 0 count

/-- During `research`, every change to `self.api_call_count` happens inside
`_retry_with_backoff`; the five workflow nodes perform some
topic-dependent sequence of such invocations (one per arXiv search, PDF
read, or LLM call).  This folds an arbitrary such sequence over the
counter. -/
def runRetrySequence (maxApiCalls : Nat) :
    List (Nat → CallOutcome) → Nat → Nat
  | [], count => count
  | o :: os, count =>
    runRetrySequence maxApiCalls os (retryWithBackoff maxApiCalls o count).1

/-- Embedding of the `api_calls_made` field of the dictionary returned by
`research(topic)`: `research` initialises `api_call_count=0`, the nodes
copy `self.api_call_count` into the state after each retry sequence, and
both the success and the failure path report the final counter value. -/
def research_api_calls_made (maxApiCalls : Nat)
    (calls : List (Nat → CallOutcome)) : Nat :=
  runRetrySequence maxApiCalls calls 0

/-! ### Research pipeline step counter
(the five workflow nodes of `AIResearcherAgent`)

Each node sets `state["step_count"]` to its own index on its success path;
`_analyze_papers_node` and `_generate_paper_node` set it on their failure
paths as well, while `_search_papers_node`, `_identify_gaps_node` and
`_create_pdf_node` leave it unchanged when their `try` body raises.  The
`ok` flags below record whether the respective `try` body completed. -/

/-- The fields of `ResearchState` that the step-counter property concerns. -/
structure RState where
  step_count : Nat
  current_step : String
  deriving DecidableEq

/-- Embedding of the `initial_state` built by `research`. -/
def initialResearchState : RState :=
  { step_count := 0, current_step := "initialized" }

/-- Embedding of `_search_papers_node` (step counter part): sets
`step_count=1` unless the search raised. -/
def searchPapersNode (ok : Bool) (s : RState) : RState :=
  if ok then { s with step_count := 1, current_step := "search_completed" }
  else s

/-- Embedding of `_analyze_papers_node` (step counter part): per-paper
failures are caught inside the loop, so `step_count=2` is always set. -/
def analyzePapersNode (s : RState) : RState :=
  { s with step_count := 2, current_step := "analysis_completed" }

/-- Embedding of `_identify_gaps_node` (step counter part): sets
`step_count=3` unless the gap analysis raised. -/
def identifyGapsNode (ok : Bool) (s : RState) : RState :=
  if ok then { s with step_count := 3, current_step := "gaps_identified" }
  else s

/-- Embedding of `_generate_paper_node` (step counter part): both the
success path and the `except` path set `step_count=4`. -/
def generatePaperNode (_ok : Bool) (s : RState) : RState :=
  { s with step_count := 4, current_step := "paper_generated" }

/-- Embedding of `_create_pdf_node` (step counter part): sets
`step_count=5` unless PDF rendering raised. -/
def createPdfNode (ok : Bool) (s : RState) : RState :=
  if ok then { s with step_count := 5, current_step := "completed" }
  else s

/-- The successive values taken by `step_count` as `workflow.invoke` runs
the five nodes in their fixed linear order, starting from the initial
state built by `research`. -/
def researchStepTrace (searchOk gapsOk genOk pdfOk : Bool) : List Nat :=
  let s0 := initialResearchState
  let s1 := searchPapersNode searchOk s0
  let s2 := analyzePapersNode s1
  let s3 := identifyGapsNode gapsOk s2
  let s4 := generatePaperNode genOk s3
  let s5 := createPdfNode pdfOk s4
  [s0.step_count, s1.step_count, s2.step_count, s3.step_count,
   s4.step_count, s5.step_count]

/-! ### Sandboxed tool registry (`backend/security/tool_registry.py`)

`ToolValidator.validate_code` parses the submitted code and walks every
AST node.  The walk is modelled as the list of nodes (in walk order) of
the parsed tree, each node abstracted to the features the validator
inspects.  The loop body is one `if`/`elif` chain, so per node:

* `ast.Call` with `func` a `Name`: the name must be in `ALLOWED_BUILTINS`
  or be a locally `def`-ined function, else `ValueError`;
* `ast.Call` with any other `func` shape: the branch runs and passes
  unless `func` is an `Attribute` over a `Name` whose module name is not
  in the caller-supplied `allowed_imports` (then `ValueError`);
* `ast.Import`: every alias must be in `ALLOWED_MODULES` or in
  `allowed_imports`, else `ValueError`;
* `ast.ImportFrom`: the module must be in `ALLOWED_MODULES` or in
  `allowed_imports`, else `ValueError`;
* every other node kind falls through to
  `elif isinstance(node, ast.Exec)`, and on Python 3 the `ast` module has
  no `Exec` (or `Eval`) attribute, so evaluating that condition raises
  `AttributeError`.

Since `ast.walk` always yields the `ast.Module` root first, and `Module`
is none of `Call`/`Import`/`ImportFrom`, every call of `validate_code`
on parseable code raises `AttributeError` at the very first walked node:
the function never returns `True` and the `ValueError` checks after the
root are unreachable.  The model keeps the per-node semantics of the
chain (so the intended checks are visible) and distinguishes the two
exception kinds; real walks are the `moduleRoot`-headed lists. -/

/-- The exception kinds `validate_code` can raise while walking:
the designed `ValueError` rejections, and the `AttributeError` from
evaluating the nonexistent `ast.Exec` on Python 3. -/
inductive PyError
  | valueError (msg : String)
  | attributeError (msg : String)
  deriving DecidableEq

/-- Shape of the `func` of an `ast.Call` node, as far as the validator
inspects it. -/
inductive PyFunc
  | name (id : String)
  | attr (moduleName : Option String)
  | otherFunc
  deriving DecidableEq

/-- One node of the walked AST, abstracted to what
`ToolValidator.validate_code` looks at.  `moduleRoot` is the `ast.Module`
node that `ast.parse` returns and `ast.walk` yields first. -/
inductive PyNode
  | moduleRoot
  | call (f : PyFunc)
  | importStmt (aliases : List String)
  | importFrom (module : Option String)
  | functionDef (name : String)
  | otherNode
  deriving DecidableEq

/-- Embedding of `ToolValidator.ALLOWED_BUILTINS`. -/
def ALLOWED_BUILTINS : List String :=
  ["abs", "all", "any", "bool", "dict", "enumerate", "filter", "float",
   "int", "len", "list", "map", "max", "min", "range", "round", "set",
   "sorted", "str", "sum", "tuple", "zip", "print"]

/-- Embedding of `ToolValidator.ALLOWED_MODULES`. -/
def ALLOWED_MODULES : List String :=
  ["math", "datetime", "json", "re", "urllib.parse", "base64",
   "hashlib", "uuid", "random", "string"]

/-- Embedding of `ToolValidator._is_local_function`: the walked tree
contains a `FunctionDef` with the given name. -/
def isLocalFunction (tree : List PyNode) (funcName : String) : Bool :=
  tree.any fun n =>
    match n with
    | .functionDef name => name = funcName
    | _ => false

/-- What the loop body of `validate_code` does for a single walked node
(`tree` is the whole walked tree, needed for `_is_local_function`):
`Call`/`Import`/`ImportFrom` run their designed `ValueError` checks, and
every other node kind falls through to `isinstance(node, ast.Exec)`,
which raises `AttributeError` on Python 3. -/
def checkNode (tree : List PyNode) (allowedImports : List String) :
    PyNode → Except PyError Unit
  | .call (.name funcName) =>
    if funcName ∈ ALLOWED_BUILTINS then .ok ()
    else if isLocalFunction tree funcName then .ok ()
    else .error (.valueError ("Function call " ++ funcName ++ " not allowed"))
  | .call (.attr (some moduleName)) =>
    if moduleName ∈ allowedImports then .ok ()
    else .error (.valueError
      ("Module " ++ moduleName ++ " not in allowed imports"))
  | .call (.attr none) => .ok ()
  | .call .otherFunc => .ok ()
  | .importStmt aliases =>
    match aliases.find? fun a =>
        decide (a ∉ ALLOWED_MODULES) && decide (a ∉ allowedImports) with
    | some a => .error (.valueError ("Import " ++ a ++ " not allowed"))
    | none => .ok ()
  | .importFrom module =>
    match module with
    | some m =>
      if m ∈ ALLOWED_MODULES then .ok ()
      else if m ∈ allowedImports then .ok ()
      else .error (.valueError ("Import from " ++ m ++ " not allowed"))
    | none => .error (.valueError "Import from relative module not allowed")
  | .moduleRoot =>
    .error (.attributeError "module ast has no attribute Exec")
  | .functionDef _ =>
    .error (.attributeError "module ast has no attribute Exec")
  | .otherNode =>
    .error (.attributeError "module ast has no attribute Exec")

/-- The `for node in ast.walk(tree)` loop: nodes are checked in walk
order and the first exception propagates. -/
def validateNodes (tree : List PyNode) (allowedImports : List String) :
    List PyNode → Except PyError Unit
  | [] => .ok ()
  | n :: rest =>
    match checkNode tree allowedImports n with
    | .ok () => validateNodes tree allowedImports rest
    | .error e => .error e

/-- Embedding of `ToolValidator.validate_code` (on an already parsed
tree, given as its walk order; `allowed_imports or []` is the
caller-supplied list).  A real walk always starts with `moduleRoot`. -/
def validate_code (tree : List PyNode) (allowedImports : List String) :
    Except PyError Unit :=
  validateNodes tree allowedImports tree

/-- The message carried by an exception, as interpolated into the
`HTTPException` detail by `register_tool`'s blanket `except`. -/
def pyErrorMessage : PyError → String
  | .valueError msg => msg
  | .attributeError msg => msg

/-- Embedding of the `forbidden_names` list in `ToolSchema.validate_name`. -/
def forbiddenToolNames : List String :=
  ["exec", "eval", "compile", "__import__", "open", "file"]

/-- Embedding of the pydantic `ToolSchema` validation performed first by
`register_tool`: field length bounds, the tool-name pattern
`[a-zA-Z_][a-zA-Z0-9_]*`, and the forbidden-name check. -/
def toolSchemaValidate (name description bodyText : String) : Except String Unit :=
  if name.length < 1 ∨ 50 < name.length then .error "invalid name length"
  else if ¬ (name.data.head?.any fun c => c.isAlpha || c = '_') then
    .error "invalid name pattern"
  else if ¬ (name.data.tail.all fun c => c.isAlphanum || c = '_') then
    .error "invalid name pattern"
  else if description.length < 1 ∨ 500 < description.length then
    .error "invalid description length"
  else if bodyText.length < 1 ∨ 10000 < bodyText.length then
    .error "invalid function body length"
  else if pyLower name ∈ forbiddenToolNames then
    .error ("Tool name " ++ name ++ " is not allowed")
  else .ok ()

/-- A registered tool as stored in `SecureToolRegistry.tools`; the
executed callable is abstract (type parameter `κ`). -/
structure StoredTool (κ : Type) where
  func : κ
  description : String
  code : List PyNode
  allowedImports : List String
  deriving DecidableEq

/-- Embedding of `SecureToolRegistry.register_tool`.  The request carries
the raw body text and its parsed walked tree; `execFind` abstracts the
`exec` in restricted globals followed by the search for a callable named
`name` in its locals, and `sigOk` abstracts `_validate_function_signature`.
On any failure the registry dictionary `tools` is returned unchanged
(the store happens last). -/
def register_tool (κ : Type) (execFind : List PyNode → Option κ)
    (sigOk : κ → Bool) (tools : List (String × StoredTool κ))
    (name description bodyText : String) (tree : List PyNode)
    (allowedImports : List String) :
    Except String (List (String × StoredTool κ)) :=
  match toolSchemaValidate name description bodyText with
  | .error e => .error e
  | .ok () =>
    match validate_code tree allowedImports with
    | .error e => .error (pyErrorMessage e)
    | .ok () =>
      match execFind tree with
      | none => .error ("Function " ++ name ++ " not found in provided code")
      | some f =>
        if sigOk f then
          .ok (tools ++ [(name,
            { func := f, description := description, code := tree,
              allowedImports := allowedImports })])
        else .error "signature validation failed"

/-! ### Autonomous agent step loop (`backend/agents/third_agent.py`)

`AutonomousAgent.chat(user_input)` runs a `while step_count < max_steps`
loop with `max_steps = 8`.  Each iteration calls the LLM
(`_get_next_action`, modelled by the oracle `responses`), parses the
structured reply (`_parse_agent_response`; an empty reply and an
unparseable reply each abort with a fixed error string), optionally
executes a simulated tool with keyword-based validation/override, appends
a step record to `step_history`, and exits early on `Goal Completed: yes`
or on the search auto-completion heuristic. -/

/-- Result of `_parse_agent_response` on one LLM reply, preceded by the
falsy-response check on `_get_next_action`. -/
inductive LLMReply
  | failed
  | unparseable
  | parsed (thought action reason goalCompleted : String)
    (finalAnswer : Option String)

/-- The fields of `_parse_agent_response`'s result dictionary. -/
structure ParsedReply where
  thought : String
  action : String
  reason : String
  goalCompleted : String
  finalAnswer : Option String
  deriving DecidableEq

/-- One entry of `self.step_history` (the `step_info` dictionary). -/
structure StepRecord where
  step : Nat
  thought : String
  action : String
  reason : String
  result : Option String
  deriving DecidableEq

/-- The keys of `self.simulated_tools`. -/
def simulatedToolNames : List String :=
  ["search_web", "get_weather", "analyze_weather", "check_air_quality",
   "get_time", "search_news"]

/-- Embedding of `_validate_action_choice(action, user_input)`; `hist` is
`self.step_history` at validation time (the steps before the current
one). -/
def validateActionChoice (hist : List StepRecord) (action userInput : String) :
    Bool :=
  let userLower := pyLower userInput
  if action = "get_weather" ∨ action = "analyze_weather" then
    let hasWeatherKeywords :=
      ["weather", "temperature", "climate", "forecast", "rain", "snow",
       "wind", "humid"].any fun w => containsSub userLower w
    if action = "analyze_weather" then
      let hasPreviousWeather := hist.any fun s => s.action = "get_weather"
      hasWeatherKeywords && hasPreviousWeather
    else hasWeatherKeywords
  else if action = "check_air_quality" then
    ["air quality", "pollution", "aqi", "smog"].any fun w =>
      containsSub userLower w
  else if action = "get_time" then
    ["time", "clock", "what time", "current time"].any fun w =>
      containsSub userLower w
  else
    true

/-- Embedding of `_get_correct_action(user_input)`. -/
def getCorrectAction (userInput : String) : String :=
  let userLower := pyLower userInput
  if ["weather", "temperature", "climate", "forecast"].any fun w =>
      containsSub userLower w then "get_weather"
  else if ["news", "headlines", "current events", "today news",
      "latest news"].any fun w => containsSub userLower w then "search_news"
  else if ["time", "clock", "what time", "current time"].any fun w =>
      containsSub userLower w then "get_time"
  else if ["air quality", "pollution", "aqi", "smog"].any fun w =>
      containsSub userLower w then "check_air_quality"
  else "search_web"

/-- The keyword test guarding `_enhance_detailed_response` in `chat`. -/
def detailedRequested (userInput : String) : Bool :=
  ["detailed", "detail", "comprehensive", "explain", "explaining"].any
    fun w => containsSub (pyLower userInput) w

/-- Embedding of the tool-execution block of one `chat` iteration: when the
parsed action is a registered tool other than `none`, it is validated and
possibly overridden with `_get_correct_action`, the (possibly corrected)
action is executed (`execTool` abstracts `_execute_simulated_action`), and
the executed action with its result is what lands in `step_info`.  Returns
the `step_info` record appended to `step_history`. -/
def runIteration (userInput : String) (execTool : String → String)
    (hist : List StepRecord) (stepNumber : Nat) (p : ParsedReply) :
    StepRecord :=
  if p.action ≠ "none" ∧ p.action ∈ simulatedToolNames then
    if validateActionChoice hist p.action userInput then
      { step := stepNumber, thought := p.thought, action := p.action,
        reason := p.reason, result := some (execTool p.action) }
    else
      let correctAction := getCorrectAction userInput
      { step := stepNumber, thought := p.thought, action := correctAction,
        reason := p.reason, result := some (execTool correctAction) }
  else
    { step := stepNumber, thought := p.thought, action := p.action,
      reason := p.reason, result := none }

/-- The fixed string returned when the loop bound is reached. -/
def maxStepsMessage : String :=
  "I reached the maximum number of steps but couldn\x27t complete the goal. Please try rephrasing your request."

/-- The fixed string returned when `_get_next_action` produced a falsy
response. -/
def thinkingErrorMessage : String :=
  "I encountered an error in my thinking process. Please try again."

/-- The fixed string returned when `_parse_agent_response` returned
`None`. -/
def parseErrorMessage : String :=
  "I couldn\x27t understand my own reasoning. Please try again."

/-- The search auto-completion filter: results of previous `search_web` or
`search_news` steps whose `result` is truthy. -/
def searchResults (hist : List StepRecord) : List String :=
  (hist.filter fun s =>
      (s.action = "search_web" ∨ s.action = "search_news") &&
        s.result.any fun r => r ≠ "").filterMap
    fun s => s.result

/-- Embedding of the `while step_count < max_steps` body of
`AutonomousAgent.chat`.  `fuel` is `max_steps - step_count`; `responses`
gives the (already parsed) LLM reply of each iteration, indexed by the
`step_count` value before the increment; `analyze` abstracts
`_analyze_search_results_with_llm`, `enhance` abstracts
`_enhance_detailed_response`.  Returns the reply string, the final
`step_history`, and the number of iterations executed. -/
def chatGo (userInput : String) (responses : Nat → LLMReply)
    (execTool : String → String) (analyze : String → String)
    (enhance : String → String) :
    Nat → Nat → List StepRecord → String × List StepRecord × Nat
  | 0, stepCount, hist => (maxStepsMessage, hist, stepCount)
  | fuel + 1, stepCount, hist =>
    let stepCount' := stepCount + 1
    match responses stepCount with
    | .failed => (thinkingErrorMessage, hist, stepCount')
    | .unparseable => (parseErrorMessage, hist, stepCount')
    | .parsed thought action reason goalCompleted finalAnswer =>
      let p : ParsedReply :=
        { thought := thought, action := action, reason := reason,
          goalCompleted := goalCompleted, finalAnswer := finalAnswer }
      let stepInfo := runIteration userInput execTool hist stepCount' p
      let hist' := hist ++ [stepInfo]
      if pyLower p.goalCompleted = "yes" then
        let answer := p.finalAnswer.getD "Goal completed successfully."
        (if detailedRequested userInput then enhance answer else answer,
         hist', stepCount')
      else if hist'.any fun s =>
          s.action = "search_web" ∨ s.action = "search_news" then
        match searchResults hist' with
        | r :: _ => (analyze r, hist', stepCount')
        | [] =>
          chatGo userInput responses execTool analyze enhance fuel
            stepCount' hist'
      else
        chatGo userInput responses execTool analyze enhance fuel
          stepCount' hist'

/-- Embedding of `AutonomousAgent.chat`: `max_steps = 8`, `step_count = 0`,
`step_history` cleared before the loop. -/
def chat (userInput : String) (responses : Nat → LLMReply)
    (execTool : String → String) (analyze : String → String)
    (enhance : String → String) : String × List StepRecord × Nat :=
  chatGo userInput responses execTool analyze enhance 8 0 []

/-! ### Blog store (`backend/api/blog_routes.py`, `backend/database/database.py`)

`blogs_store` is a dict keyed by the integer `next_blog_id`; it is only
ever extended with fresh increasing keys and iterated with `.values()`,
so it is modelled as a list in insertion order.  Timestamps are modelled
as `Nat`. -/

/-- One stored blog post (the fields that the list, detail and create
routes read or write). -/
structure Blog where
  id : Nat
  slug : String
  title : String
  excerpt : String
  content : String
  category : String
  tags : String
  agentType : String
  published : Bool
  featured : Bool
  views : Nat
  likes : Nat
  createdAt : Nat
  author : String
  deriving DecidableEq

/-- Query parameters of `GET /api/blog/posts`. -/
structure BlogQuery where
  q : Option String
  category : Option String
  tags : Option String
  agentType : Option String
  published : Option Bool
  featured : Option Bool
  page : Nat
  pageSize : Nat
  sortBy : String
  sortOrder : String

/-- Embedding of the filter block of `get_blog_posts` (one `continue`
test per clause; Python truthiness makes an empty-string query argument a
no-op). -/
def matchesFilters (params : BlogQuery) (blog : Blog) : Bool :=
  (match params.published with
   | some p => blog.published = p
   | none => true) &&
  (match params.featured with
   | some f => blog.featured = f
   | none => true) &&
  (match params.q with
   | some q =>
     if q ≠ "" then
       containsSub
         (pyLower (blog.title ++ " " ++ blog.excerpt ++ " " ++ blog.content))
         (pyLower q)
     else true
   | none => true) &&
  (match params.category with
   | some c => if c ≠ "" then blog.category = c else true
   | none => true) &&
  (match params.tags with
   | some t =>
     if t ≠ "" then containsSub (pyLower blog.tags) (pyLower t) else true
   | none => true) &&
  (match params.agentType with
   | some a => if a ≠ "" then blog.agentType = a else true
   | none => true)

/-- Embedding of the sort block of `get_blog_posts`: a stable sort on the
selected key, descending when `sortOrder == "desc"`; a `sortBy` naming no
blog field compares `datetime.min` with itself, so the stable sort leaves
the order unchanged, which the all-equal key `0` reproduces. -/
def sortKeyNat (sortBy : String) (blog : Blog) : Nat :=
  if sortBy = "views" then blog.views
  else if sortBy = "likes" then blog.likes
  else if sortBy = "createdAt" then blog.createdAt
  else 0

/-- The stable keyed sort of `get_blog_posts` (`list.sort(key=..., reverse=...)`). -/
def sortBlogs (sortBy sortOrder : String) (blogs : List Blog) : List Blog :=
  let reverse := sortOrder = "desc"
  if sortBy = "title" then
    if reverse then blogs.mergeSort fun a b => b.title ≤ a.title
    else blogs.mergeSort fun a b => a.title ≤ b.title
  else
    if reverse then
      blogs.mergeSort fun a b => sortKeyNat sortBy b ≤ sortKeyNat sortBy a
    else
      blogs.mergeSort fun a b => sortKeyNat sortBy a ≤ sortKeyNat sortBy b

/-- Embedding of `math.ceil(total / pageSize)` for natural arguments with
`pageSize > 0` (the float division is exact at these magnitudes). -/
def pyCeil (total pageSize : Nat) : Nat :=
  (total + pageSize - 1) / pageSize

/-- The `BlogListResponse` payload of `get_blog_posts`. -/
structure BlogListResponse where
  blogs : List Blog
  total : Nat
  page : Nat
  pageSize : Nat
  totalPages : Nat
  deriving DecidableEq

/-- Embedding of `get_blog_posts`: filter, stable sort, then the Python
slice `filtered_blogs[start_idx:end_idx]` with
`start_idx = (page - 1) * pageSize` and `end_idx = start_idx + pageSize`. -/
def get_blog_posts (store : List Blog) (params : BlogQuery) :
    BlogListResponse :=
  let filtered := store.filter (matchesFilters params)
  let sorted := sortBlogs params.sortBy params.sortOrder filtered
  let total := sorted.length
  let totalPages := pyCeil total params.pageSize
  let startIdx := (params.page - 1) * params.pageSize
  let paginated := (sorted.drop startIdx).take params.pageSize
  { blogs := paginated, total := total, page := params.page,
    pageSize := params.pageSize, totalPages := totalPages }

/-- The four in-memory stores touched (or not) by the blog detail route.
Comments, categories and tags are opaque payloads keyed like the source
dicts. -/
structure BlogStores where
  blogs : List Blog
  comments : List (Nat × List String)
  categories : List (Nat × String)
  tagEntries : List (Nat × String)
  deriving DecidableEq

/-- The in-place `blog['views'] = blog.get('views', 0) + 1` update. -/
def bumpViews (b : Blog) : Blog :=
  { b with views := b.views + 1 }

/-- The effect on `blogs_store` of mutating the first dict whose slug
matches (iteration in insertion order, `break` at the first hit). -/
def bumpFirstMatch (slug : String) : List Blog → List Blog
  | [] => []
  | b :: bs =>
    if b.slug = slug then bumpViews b :: bs
    else b :: bumpFirstMatch slug bs

/-- Embedding of `get_blog_post` (`GET /api/blog/posts/{slug}`): find the
first blog with the given slug; on a miss raise `HTTPException(404)`
leaving every store untouched, on a hit increment that blog's view count
in place and return it.  The second component is the post-request state of
all four stores. -/
def get_blog_post (slug : String) (s : BlogStores) :
    Except Nat Blog × BlogStores :=
  match s.blogs.find? fun b => b.slug = slug with
  | none => (.error 404, s)
  | some b =>
    (.ok (bumpViews b), { s with blogs := bumpFirstMatch slug s.blogs })

/-! ### Slug generation (`generate_slug` in `backend/database/database.py`
and the uniqueness loop in `create_blog_post`) -/

/-- Python `\w` membership (ASCII view): alphanumeric or underscore. -/
def isWordChar (c : Char) : Bool :=
  c.isAlphanum || c = '_'

/-- Embedding of `re.sub(r'[^\w\s-]', '', title.lower())`: keep word
characters, whitespace and hyphens of the lowercased title. -/
def slugKeepChars (title : String) : List Char :=
  (pyLower title).data.filter fun c => isWordChar c || c.isWhitespace || c = '-'

/-- Embedding of `re.sub(r'[-\s]+', '-', ...)`: each maximal run of
hyphens and whitespace becomes a single hyphen. -/
def collapseRuns : List Char → List Char
  | [] => []
  | c :: cs =>
    if c = '-' ∨ c.isWhitespace then
      '-' :: collapseRuns (cs.dropWhile fun d => d = '-' || d.isWhitespace)
    else
      c :: collapseRuns cs
termination_by l => l.length
decreasing_by
  · have := (List.dropWhile_sublist (l := cs)
      (p := fun d => d = '-' || d.isWhitespace)).length_le
    simp only [List.length_cons]
    omega
  · simp only [List.length_cons]
    omega

/-- Embedding of `.strip('-')`. -/
def stripHyphens (l : List Char) : List Char :=
  ((l.dropWhile fun c => c = '-').reverse.dropWhile fun c => c = '-').reverse

/-- Embedding of `generate_slug(title)`; `uuidSuffix` is the oracle for
`str(uuid.uuid4())[:8]`. -/
def generate_slug (title uuidSuffix : String) : String :=
  ⟨stripHyphens (collapseRuns (slugKeepChars title))⟩ ++ "-" ++ uuidSuffix

/-- Decimal digit characters, as produced by Python string formatting. -/
def digitChar (d : Nat) : Char :=
  match d with
  | 0 => '0' | 1 => '1' | 2 => '2' | 3 => '3' | 4 => '4'
  | 5 => '5' | 6 => '6' | 7 => '7' | 8 => '8' | 9 => '9'
  | _ => '*'

/-- Decimal rendering of a counter value, as `f"{counter}"` produces. -/
def natToDecimal (n : Nat) : String :=
  if n = 0 then "0"
  else ⟨(Nat.digits 10 n).reverse.map digitChar⟩

/-- The successive slugs tried by the uniqueness loop of
`create_blog_post`: the original slug, then `orig-1`, `orig-2`, ... -/
def slugCandidate (orig : String) : Nat → String
  | 0 => orig
  | k + 1 => orig ++ "-" ++ natToDecimal (k + 1)

/-- The `while processed_data['slug'] in existing_slugs` loop, which
returns the first candidate not among the existing slugs.  The fuel
`existing.length + 1` provably suffices (`uniquifySlug_not_mem` below), so
the bounded recursion computes exactly what the unbounded loop does. -/
def uniquifySlugAux (orig : String) (existing : List String) :
    Nat → Nat → String
  | 0, k => slugCandidate orig k
  | fuel + 1, k =>
    if slugCandidate orig k ∈ existing then
      uniquifySlugAux orig existing fuel (k + 1)
    else
      slugCandidate orig k

/-- Slug-uniqueness loop of `create_blog_post`. -/
def uniquifySlug (orig : String) (existing : List String) : String :=
  uniquifySlugAux orig existing (existing.length + 1) 0

/-- Embedding of `create_blog_post` (`POST /api/blog/posts`), restricted
to the fields the slug-uniqueness property concerns.  `proto` carries the
request payload already processed by `repo.create_blog` except for slug
assignment, which is modelled faithfully: a missing or empty submitted
slug is replaced by `generate_slug(title)`, and the result is made unique
against the slugs currently in the store. -/
def create_blog_post (store : List Blog) (nextBlogId : Nat) (proto : Blog)
    (givenSlug : Option String) (uuidSuffix : String) :
    Blog × List Blog × Nat :=
  let slug0 :=
    match givenSlug with
    | some s => if s ≠ "" then s else generate_slug proto.title uuidSuffix
    | none => generate_slug proto.title uuidSuffix
  let existingSlugs := store.map fun b => b.slug
  let slug := uniquifySlug slug0 existingSlugs
  let blog : Blog :=
    { proto with id := nextBlogId, slug := slug, views := 0, likes := 0,
                 author := "Developer" }
  (blog, store ++ [blog], nextBlogId + 1)

/-- A sequence of create requests (payload, optional submitted slug, uuid
oracle) applied in order, as successive `POST /api/blog/posts` calls. -/
def createMany : List (Blog × Option String × String) →
    List Blog × Nat → List Blog × Nat
  | [], st => st
  | (proto, gs, uuid) :: rest, (store, nid) =>
    let r := create_blog_post store nid proto gs uuid
    createMany rest (r.2.1, r.2.2)

/-! ### Chunked streaming (`stream_text_response` in `backend/main.py`) -/

/-- One SSE chunk yielded by `stream_text_response`, abstracted to its
`type` and (for content chunks) its `content` field. -/
inductive StreamChunk
  | start
  | content (text : List Char)
  deriving DecidableEq

/-- Embedding of Python `response.split()`: split on runs of whitespace,
dropping empty pieces.  The accumulator holds the current word reversed. -/
def pySplitAux : List Char → List Char → List (List Char)
  | [], acc => if acc.isEmpty then [] else [acc.reverse]
  | c :: cs, acc =>
    if c.isWhitespace then
      if acc.isEmpty then pySplitAux cs []
      else acc.reverse :: pySplitAux cs []
    else
      pySplitAux cs (c :: acc)

/-- Embedding of `words = response.split()` at the character level. -/
def pySplitWords (s : List Char) : List (List Char) :=
  pySplitAux s []

/-- The `range(0, len(words), chunk_size)` grouping with
`chunk_size = 5`. -/
def chunksOf5 {α : Type} : List α → List (List α)
  | [] => []
  | x :: xs => (x :: xs).take 5 :: chunksOf5 ((x :: xs).drop 5)
termination_by l => l.length
decreasing_by
  simp only [List.drop_succ_cons, List.length_drop, List.length_cons]
  omega

/-- Embedding of `" ".join(chunk_words)`. -/
def joinWords : List (List Char) → List Char
  | [] => []
  | w :: ws =>
    match ws with
    | [] => w
    | _ :: _ => w ++ ' ' :: joinWords ws

/-- The `content` fields of the content chunks, in order: the first chunk
is joined as is, every later chunk gets the leading `" "` the code adds
when `i > 0`. -/
def contentChunks (ws : List (List Char)) : List (List Char) :=
  match chunksOf5 ws with
  | [] => []
  | c :: cs => joinWords c :: cs.map fun c' => ' ' :: joinWords c'

/-- Embedding of `stream_text_response(response, ...)`: one `start` chunk
with metadata, then the word chunks as `content` chunks (the
`asyncio.sleep` pacing carries no data and is dropped). -/
def stream_text_response (response : String) : List StreamChunk :=
  .start :: (contentChunks (pySplitWords response.data)).map .content

/-! ## Theorems -/

/-- The quota check of `_retry_with_backoff` preserves the upper bound on
`api_call_count` across one invocation. -/
theorem retryGo_fst_le (maxApiCalls : Nat) (outcome : Nat → CallOutcome) :
    ∀ fuel attempt count, count ≤ maxApiCalls →
      (retryGo maxApiCalls outcome fuel attempt count).1 ≤ maxApiCalls := by
  intro fuel
  induction fuel with
  | zero => intro attempt count h; exact h
  | succ fuel ih =>
    intro attempt count h
    rw [retryGo]
    by_cases hq : maxApiCalls ≤ count
    · simpa [hq] using h
    · have hlt : count < maxApiCalls := Nat.lt_of_not_le hq
      simp only [if_neg hq]
      cases outcome attempt with
      | ok => exact hlt
      | err => exact hlt
      | exhausted =>
        by_cases hf : fuel = 0
        · simp [hf]; exact hlt
        · simp only [if_neg hf]
          exact ih (attempt + 1) (count + 1) hlt

/-- Folding any sequence of `_retry_with_backoff` invocations preserves
the quota bound. -/
theorem runRetrySequence_le (maxApiCalls : Nat) :
    ∀ (os : List (Nat → CallOutcome)) (count : Nat),
      count ≤ maxApiCalls →
      runRetrySequence maxApiCalls os count ≤ maxApiCalls := by
  intro os
  induction os with
  | nil => intro count h; exact h
  | cons o os ih =>
    intro count h
    exact ih _ (retryGo_fst_le maxApiCalls o 5 0 count h)

/-- C1: after a full `research(topic)` invocation on an
`AIResearcherAgent` configured with `max_api_calls = N`, the reported
`api_calls_made` is at most `N`, whatever sequence of API-call outcomes
the five pipeline nodes encounter: every attempt inside
`_retry_with_backoff` checks `api_call_count >= max_api_calls` and raises
`ResourceExhausted` before a call that would push the counter past the
ceiling. -/
theorem research_api_calls_made_le_max (maxApiCalls : Nat)
    (calls : List (Nat → CallOutcome)) :
    research_api_calls_made maxApiCalls calls ≤ maxApiCalls :=
  runRetrySequence_le maxApiCalls calls 0 (Nat.zero_le _)

/-- C5: within a single `research(topic)` invocation, `step_count` starts
at `0`, the successive values after each of the five stages form a
monotonically non-decreasing chain whatever the stage outcomes, and on a
complete (all-stages-successful) run the trace is exactly
`0, 1, 2, 3, 4, 5`, ending at `5`. -/
theorem researchStepTrace_monotone :
    (∀ searchOk gapsOk genOk pdfOk : Bool,
      List.Chain' (· ≤ ·) (researchStepTrace searchOk gapsOk genOk pdfOk)) ∧
    researchStepTrace true true true true = [0, 1, 2, 3, 4, 5] := by
  constructor
  · intro s g p q
    cases s <;> cases g <;> cases p <;> cases q <;>
      norm_num [researchStepTrace, initialResearchState, searchPapersNode,
        analyzePapersNode, identifyGapsNode, generatePaperNode,
        createPdfNode, List.chain'_cons]
  · decide

/-- The walk of `validate_code` raises `AttributeError` as soon as it
reaches the `Module` root, whatever comes after it. -/
theorem validateNodes_moduleRoot_head (tree : List PyNode)
    (allowedImports : List String) (rest : List PyNode) :
    validateNodes tree allowedImports (PyNode.moduleRoot :: rest) =
      .error (.attributeError "module ast has no attribute Exec") :=
  rfl

/-- Any failure before the `self.tools[name] = ...` assignment makes
`register_tool` raise with the registry unchanged; in particular a
`validate_code` exception does (the blanket `except Exception` turns it
into an `HTTPException`). -/
theorem register_tool_error_of_validate_error
    (tree : List PyNode) (allowedImports : List String)
    (hv : ∃ e, validate_code tree allowedImports = .error e) :
    ∀ (κ : Type) (execFind : List PyNode → Option κ) (sigOk : κ → Bool)
      (tools : List (String × StoredTool κ)) (name d bodyText : String),
      ∃ e, register_tool κ execFind sigOk tools name d bodyText tree
        allowedImports = .error e := by
  intro κ execFind sigOk tools name d bodyText
  obtain ⟨e, he⟩ := hv
  rw [register_tool]
  cases hs : toolSchemaValidate name d bodyText with
  | error e' => exact ⟨e', rfl⟩
  | ok u => cases u; rw [he]; exact ⟨pyErrorMessage e, rfl⟩

/-- C3 (code bug): the claim describes the designed behaviour of the
validator, but the code crashes before performing it.  On Python 3,
`ast` has no `Exec` attribute, the `Module` root is walked first, and it
matches none of `Call`/`Import`/`ImportFrom`, so the chain evaluates
`isinstance(node, ast.Exec)` and raises `AttributeError` for every
parseable body — here evaluated at the failing input `import os`.  The
claimed `ValueError` is never raised; `register_tool` indeed stores no
callable, but only because every registration fails. -/
theorem register_tool_never_stores :
    validate_code [PyNode.moduleRoot, PyNode.importStmt ["os"]] [] =
      .error (.attributeError "module ast has no attribute Exec") ∧
    ∀ (bodyNodes : List PyNode) (allowedImports : List String)
      (κ : Type) (execFind : List PyNode → Option κ) (sigOk : κ → Bool)
      (tools : List (String × StoredTool κ)) (name d bodyText : String),
      ∃ e, register_tool κ execFind sigOk tools name d bodyText
        (PyNode.moduleRoot :: bodyNodes) allowedImports = .error e := by
  refine ⟨rfl, ?_⟩
  intro bodyNodes allowedImports κ execFind sigOk tools name d bodyText
  exact register_tool_error_of_validate_error
    (PyNode.moduleRoot :: bodyNodes) allowedImports
    ⟨.attributeError "module ast has no attribute Exec",
      validateNodes_moduleRoot_head _ _ _⟩
    κ execFind sigOk tools name d bodyText

/-- C8 (code bug): the import allow-list check of `validate_code` (lines
77-87 of `tool_registry.py`) would accept `import M` exactly when `M` is
in `ALLOWED_MODULES` or in `allowed_imports`, but it is unreachable: the
walk raises `AttributeError` at the `Module` root on every input, so
no import statement is ever accepted — not even the whitelisted
statement `import math`. -/
theorem validate_code_never_accepts :
    (∀ (bodyNodes : List PyNode) (allowedImports : List String),
      validate_code (PyNode.moduleRoot :: bodyNodes) allowedImports =
        .error (.attributeError "module ast has no attribute Exec")) ∧
    validate_code [PyNode.moduleRoot, PyNode.importStmt ["math"]] [] =
      .error (.attributeError "module ast has no attribute Exec") ∧
    "math" ∈ ALLOWED_MODULES := by
  exact ⟨fun bodyNodes allowedImports =>
    validateNodes_moduleRoot_head _ _ _, rfl, by decide⟩

/-- C7: in every iteration of `AutonomousAgent.chat` whose parsed action
is a registered tool other than `none`, the action executed and recorded
in the step history is the parsed action when
`_validate_action_choice(action, user_input)` holds, and
`_get_correct_action(user_input)` (the silent override) when it does
not. -/
theorem runIteration_validate_override
    (userInput : String) (execTool : String → String)
    (hist : List StepRecord) (stepNumber : Nat) (p : ParsedReply)
    (hne : p.action ≠ "none") (htool : p.action ∈ simulatedToolNames) :
    (validateActionChoice hist p.action userInput = true →
      runIteration userInput execTool hist stepNumber p =
        { step := stepNumber, thought := p.thought, action := p.action,
          reason := p.reason, result := some (execTool p.action) }) ∧
    (validateActionChoice hist p.action userInput = false →
      runIteration userInput execTool hist stepNumber p =
        { step := stepNumber, thought := p.thought,
          action := getCorrectAction userInput, reason := p.reason,
          result := some (execTool (getCorrectAction userInput)) }) := by
  constructor <;> intro hv
  · simp only [runIteration]
    rw [if_pos ⟨hne, htool⟩, if_pos hv]
  · simp only [runIteration]
    rw [if_pos ⟨hne, htool⟩, if_neg (by simp [hv])]

/-- Witness for C7 at a concrete iteration: on the goal
`what is the weather in Paris`, the parsed action `get_time` fails
validation and is overridden with `get_weather`, which is what gets
executed and recorded. -/
theorem runIteration_validate_override_witness :
    validateActionChoice [] "get_time" "what is the weather in Paris"
        = false ∧
    runIteration "what is the weather in Paris" (fun a => a) [] 1
      ⟨"t", "get_time", "r", "no", none⟩ =
      { step := 1, thought := "t", action := "get_weather", reason := "r",
        result := some "get_weather" } := by
  have h := (runIteration_validate_override "what is the weather in Paris"
    (fun a => a) [] 1 ⟨"t", "get_time", "r", "no", none⟩
    (by decide) (by decide)).2 (by decide)
  refine ⟨by decide, ?_⟩
  rw [h]
  decide

/-- The loop of `chat` executes at most `fuel` further iterations. -/
theorem chatGo_steps_le (ui : String) (responses : Nat → LLMReply)
    (execTool analyze enhance : String → String) :
    ∀ (fuel stepCount : Nat) (hist : List StepRecord),
      (chatGo ui responses execTool analyze enhance
          fuel stepCount hist).2.2 ≤ stepCount + fuel := by
  intro fuel
  induction fuel with
  | zero => intro sc h; simp [chatGo]
  | succ fuel ih =>
    intro sc h
    rw [chatGo]
    cases responses sc with
    | failed => simp
    | unparseable => simp
    | parsed t a r g fa =>
      simp only []
      split
      · simp
      · split
        · split
          · simp
          · exact le_trans (ih (sc + 1) _) (by omega)
        · exact le_trans (ih (sc + 1) _) (by omega)

/-- When every LLM reply parses to a step with action `none` and a
`Goal Completed` value other than `yes`, no early exit fires and the loop
runs its full fuel, ending in the fixed maximum-steps message. -/
theorem chatGo_never_complete (ui : String) (responses : Nat → LLMReply)
    (execTool analyze enhance : String → String)
    (hresp : ∀ i, ∃ t r g fa,
      responses i = .parsed t "none" r g fa ∧ pyLower g ≠ "yes") :
    ∀ (fuel stepCount : Nat) (hist : List StepRecord),
      (∀ s ∈ hist, s.action ≠ "search_web" ∧ s.action ≠ "search_news") →
      (chatGo ui responses execTool analyze enhance
          fuel stepCount hist).1 = maxStepsMessage ∧
      (chatGo ui responses execTool analyze enhance
          fuel stepCount hist).2.2 = stepCount + fuel := by
  intro fuel
  induction fuel with
  | zero => intro sc hist hh; simp [chatGo]
  | succ fuel ih =>
    intro sc hist hh
    obtain ⟨t, r, g, fa, hr, hg⟩ := hresp sc
    rw [chatGo, hr]
    simp only []
    have hstep : runIteration ui execTool hist (sc + 1)
        { thought := t, action := "none", reason := r,
          goalCompleted := g, finalAnswer := fa } =
        { step := sc + 1, thought := t, action := "none", reason := r,
          result := none } := by
      simp [runIteration]
    rw [hstep]
    rw [if_neg hg]
    have hnosearch : ¬((hist ++ [({ step := sc + 1, thought := t, action := "none", reason := r, result := none } : StepRecord)]).any
          fun s => decide (s.action = "search_web" ∨
            s.action = "search_news")) = true := by
      simp only [List.any_eq_true]
      rintro ⟨s, hs, hps⟩
      rcases List.mem_append.mp hs with h | h
      · rcases of_decide_eq_true hps with h' | h'
        · exact (hh s h).1 h'
        · exact (hh s h).2 h'
      · simp only [List.mem_singleton] at h
        rw [h] at hps
        exact absurd (of_decide_eq_true hps) (by simp)
    rw [if_neg hnosearch]
    have hh' : ∀ s ∈ hist ++ [({ step := sc + 1, thought := t, action := "none", reason := r, result := none } : StepRecord)],
        s.action ≠ "search_web" ∧ s.action ≠ "search_news" := by
      intro s hs
      rcases List.mem_append.mp hs with h | h
      · exact hh s h
      · simp only [List.mem_singleton] at h
        rw [h]
        exact ⟨by simp, by simp⟩
    have := ih (sc + 1) _ hh'
    exact ⟨this.1, by rw [this.2]; omega⟩

/-- C2: for every user input and every behaviour of the LLM and the
tools, `AutonomousAgent.chat` executes at most `max_steps = 8` iterations
of its while loop and (being a total function) always returns a reply
string; when the LLM replies never contain `Goal Completed: yes` (modelled
here with action `none`, so no early tool exit can fire either), the
bound is reached and the fixed maximum-steps message is returned after
exactly 8 iterations. -/
theorem chat_max_steps (ui : String) (responses : Nat → LLMReply)
    (execTool analyze enhance : String → String) :
    (chat ui responses execTool analyze enhance).2.2 ≤ 8 ∧
    ((∀ i, ∃ t r g fa,
        responses i = .parsed t "none" r g fa ∧ pyLower g ≠ "yes") →
      (chat ui responses execTool analyze enhance).1 = maxStepsMessage ∧
      (chat ui responses execTool analyze enhance).2.2 = 8) := by
  constructor
  · simpa [chat] using
      chatGo_steps_le ui responses execTool analyze enhance 8 0 []
  · intro h
    simpa [chat] using
      chatGo_never_complete ui responses execTool analyze enhance h 8 0 []
        (by simp)

/-- Witness for C2 at a concrete run: an LLM that always answers with
action `none` and `Goal Completed: no` drives `chat` through all 8
iterations to the fixed maximum-steps message. -/
theorem chat_max_steps_witness :
    (chat "goal" (fun _ => .parsed "t" "none" "r" "no" none)
      (fun _ => "") (fun _ => "") (fun _ => "")).1 = maxStepsMessage ∧
    (chat "goal" (fun _ => .parsed "t" "none" "r" "no" none)
      (fun _ => "") (fun _ => "") (fun _ => "")).2.2 = 8 :=
  (chat_max_steps "goal" (fun _ => .parsed "t" "none" "r" "no" none)
    (fun _ => "") (fun _ => "") (fun _ => "")).2
    (fun _ => ⟨"t", "r", "no", none, rfl, by decide⟩)

/-- When no stored blog carries the slug, the lookup loop finds nothing. -/
theorem find_slug_eq_none (slug : String) (l : List Blog)
    (h : ∀ b ∈ l, b.slug ≠ slug) :
    (l.find? fun b => b.slug = slug) = none := by
  rw [List.find?_eq_none]
  intro b hb
  simp [h b hb]

/-- The lookup loop returns the first blog with the slug. -/
theorem find_slug_first (slug : String) :
    ∀ (l₁ : List Blog) (b : Blog) (l₂ : List Blog),
      (∀ x ∈ l₁, x.slug ≠ slug) → b.slug = slug →
      ((l₁ ++ b :: l₂).find? fun x => x.slug = slug) = some b := by
  intro l₁
  induction l₁ with
  | nil =>
    intro b l₂ _ hb
    simp [List.find?_cons, hb]
  | cons a l₁ ih =>
    intro b l₂ ha hb
    have ha' : a.slug ≠ slug := ha a (List.mem_cons_self a l₁)
    simp only [List.cons_append, List.find?_cons, decide_eq_false ha']
    exact ih b l₂ (fun x hx => ha x (List.mem_cons_of_mem a hx)) hb

/-- Mutating the first matching dict leaves the store unchanged when
nothing matches. -/
theorem bumpFirstMatch_of_not_mem (slug : String) :
    ∀ l : List Blog, (∀ b ∈ l, b.slug ≠ slug) →
      bumpFirstMatch slug l = l := by
  intro l
  induction l with
  | nil => intro _; rfl
  | cons a l ih =>
    intro h
    rw [bumpFirstMatch, if_neg (h a (List.mem_cons_self a l))]
    rw [ih fun x hx => h x (List.mem_cons_of_mem a hx)]

/-- Mutating the first matching dict bumps exactly the first match and
keeps everything else in place. -/
theorem bumpFirstMatch_first (slug : String) :
    ∀ (l₁ : List Blog) (b : Blog) (l₂ : List Blog),
      (∀ x ∈ l₁, x.slug ≠ slug) → b.slug = slug →
      bumpFirstMatch slug (l₁ ++ b :: l₂) = l₁ ++ bumpViews b :: l₂ := by
  intro l₁
  induction l₁ with
  | nil =>
    intro b l₂ _ hb
    simp only [List.nil_append]
    rw [bumpFirstMatch, if_pos hb]
  | cons a l₁ ih =>
    intro b l₂ ha hb
    simp only [List.cons_append]
    rw [bumpFirstMatch, if_neg (ha a (List.mem_cons_self a l₁))]
    rw [ih b l₂ (fun x hx => ha x (List.mem_cons_of_mem a hx)) hb]

/-- C10: `GET /posts/{slug}` either finds the first blog with the slug,
increments exactly that blog's `views` field by one (leaving its other
fields and all other blogs in place), or raises 404 with every store
untouched; `comments_store`, `categories_store` and `tags_store` are
never modified. -/
theorem get_blog_post_frame (s : BlogStores) (slug : String) :
    ((get_blog_post slug s).2.comments = s.comments ∧
     (get_blog_post slug s).2.categories = s.categories ∧
     (get_blog_post slug s).2.tagEntries = s.tagEntries) ∧
    ((∀ b ∈ s.blogs, b.slug ≠ slug) →
      (get_blog_post slug s).1 = .error 404 ∧
      (get_blog_post slug s).2 = s) ∧
    (∀ (l₁ : List Blog) (b : Blog) (l₂ : List Blog),
      s.blogs = l₁ ++ b :: l₂ →
      (∀ x ∈ l₁, x.slug ≠ slug) → b.slug = slug →
      (get_blog_post slug s).1 = .ok (bumpViews b) ∧
      (get_blog_post slug s).2.blogs = l₁ ++ bumpViews b :: l₂ ∧
      (bumpViews b).views = b.views + 1 ∧
      (bumpViews b).id = b.id ∧ (bumpViews b).slug = b.slug ∧
      (bumpViews b).title = b.title ∧ (bumpViews b).excerpt = b.excerpt ∧
      (bumpViews b).content = b.content ∧
      (bumpViews b).category = b.category ∧
      (bumpViews b).tags = b.tags ∧
      (bumpViews b).agentType = b.agentType ∧
      (bumpViews b).published = b.published ∧
      (bumpViews b).featured = b.featured ∧
      (bumpViews b).likes = b.likes ∧
      (bumpViews b).createdAt = b.createdAt ∧
      (bumpViews b).author = b.author) := by
  refine ⟨?_, ?_, ?_⟩
  · cases hf : s.blogs.find? fun b => b.slug = slug <;>
      simp [get_blog_post, hf]
  · intro h
    have hf := find_slug_eq_none slug s.blogs h
    have hb := bumpFirstMatch_of_not_mem slug s.blogs h
    simp [get_blog_post, hf]
  · intro l₁ b l₂ hsplit h1 hb
    have hf : (s.blogs.find? fun x => x.slug = slug) = some b := by
      rw [hsplit]; exact find_slug_first slug l₁ b l₂ h1 hb
    have hbump : bumpFirstMatch slug s.blogs = l₁ ++ bumpViews b :: l₂ := by
      rw [hsplit]; exact bumpFirstMatch_first slug l₁ b l₂ h1 hb
    refine ⟨by simp [get_blog_post, hf], ?_, rfl, rfl, rfl, rfl, rfl, rfl,
      rfl, rfl, rfl, rfl, rfl, rfl, rfl, rfl⟩
    simp [get_blog_post, hf, hbump]

/-- Witness for C10 on a concrete one-post store: fetching the stored
slug bumps its views and touches nothing else; fetching a missing slug
404s and leaves the stores as they were. -/
theorem get_blog_post_frame_witness :
    (get_blog_post "b" ⟨[{ id := 2, slug := "b", title := "B", excerpt := "e", content := "c", category := "g", tags := "t", agentType := "a", published := true, featured := false, views := 5, likes := 2, createdAt := 7, author := "Developer" }], [(1, ["hi"])], [(1, "cat")], [(1, "tag")]⟩).1 =
      .ok (bumpViews { id := 2, slug := "b", title := "B", excerpt := "e", content := "c", category := "g", tags := "t", agentType := "a", published := true, featured := false, views := 5, likes := 2, createdAt := 7, author := "Developer" }) ∧
    (get_blog_post "b" ⟨[{ id := 2, slug := "b", title := "B", excerpt := "e", content := "c", category := "g", tags := "t", agentType := "a", published := true, featured := false, views := 5, likes := 2, createdAt := 7, author := "Developer" }], [(1, ["hi"])], [(1, "cat")], [(1, "tag")]⟩).2.comments = [(1, ["hi"])] ∧
    (get_blog_post "zzz" ⟨[{ id := 2, slug := "b", title := "B", excerpt := "e", content := "c", category := "g", tags := "t", agentType := "a", published := true, featured := false, views := 5, likes := 2, createdAt := 7, author := "Developer" }], [(1, ["hi"])], [(1, "cat")], [(1, "tag")]⟩).1 = .error 404 := by
  have h1 := (get_blog_post_frame ⟨[{ id := 2, slug := "b", title := "B", excerpt := "e", content := "c", category := "g", tags := "t", agentType := "a", published := true, featured := false, views := 5, likes := 2, createdAt := 7, author := "Developer" }], [(1, ["hi"])], [(1, "cat")], [(1, "tag")]⟩ "b").2.2
    [] _ [] rfl (by simp) rfl
  have h2 := (get_blog_post_frame ⟨[{ id := 2, slug := "b", title := "B", excerpt := "e", content := "c", category := "g", tags := "t", agentType := "a", published := true, featured := false, views := 5, likes := 2, createdAt := 7, author := "Developer" }], [(1, ["hi"])], [(1, "cat")], [(1, "tag")]⟩ "b").1
  have h3 := (get_blog_post_frame ⟨[{ id := 2, slug := "b", title := "B", excerpt := "e", content := "c", category := "g", tags := "t", agentType := "a", published := true, featured := false, views := 5, likes := 2, createdAt := 7, author := "Developer" }], [(1, ["hi"])], [(1, "cat")], [(1, "tag")]⟩ "zzz").2.1
    (by decide)
  exact ⟨h1.1, h2.1, h3.1⟩

/-- Decimal digit characters are distinct for distinct digits. -/
theorem digitChar_injOn (a b : Nat) (ha : a < 10) (hb : b < 10)
    (h : digitChar a = digitChar b) : a = b := by
  interval_cases a <;> interval_cases b <;> simp_all [digitChar]

/-- Rendering digit lists to characters is injective on genuine digit
lists. -/
theorem map_digitChar_inj :
    ∀ (as bs : List Nat), (∀ x ∈ as, x < 10) → (∀ x ∈ bs, x < 10) →
      as.map digitChar = bs.map digitChar → as = bs := by
  intro as
  induction as with
  | nil =>
    intro bs _ _ h
    cases bs with
    | nil => rfl
    | cons b bs => simp at h
  | cons a as ih =>
    intro bs ha hb h
    cases bs with
    | nil => simp at h
    | cons b bs =>
      simp only [List.map_cons, List.cons.injEq] at h
      have h1 := digitChar_injOn a b (ha a (List.mem_cons_self a as))
        (hb b (List.mem_cons_self b bs)) h.1
      have h2 := ih bs (fun x hx => ha x (List.mem_cons_of_mem a hx))
        (fun x hx => hb x (List.mem_cons_of_mem b hx)) h.2
      rw [h1, h2]

/-- The character data of the decimal rendering of a nonzero counter. -/
theorem natToDecimal_data_of_ne_zero (n : Nat) (hn : n ≠ 0) :
    (natToDecimal n).data = (Nat.digits 10 n).reverse.map digitChar := by
  rw [natToDecimal, if_neg hn]

/-- Decimal rendering of counters is injective: distinct counters give
distinct `orig-k` suffixes. -/
theorem natToDecimal_inj (m n : Nat) (h : natToDecimal m = natToDecimal n) :
    m = n := by
  have hd : (natToDecimal m).data = (natToDecimal n).data := by rw [h]
  by_cases hm : m = 0 <;> by_cases hn : n = 0
  · rw [hm, hn]
  · exfalso
    rw [hm] at hd
    rw [natToDecimal_data_of_ne_zero n hn] at hd
    have h0 : ([0] : List Nat).map digitChar =
        (Nat.digits 10 n).reverse.map digitChar := by
      simpa [natToDecimal, digitChar] using hd
    have := map_digitChar_inj [0] (Nat.digits 10 n).reverse (by simp)
      (fun x hx => Nat.digits_lt_base (by norm_num)
        (List.mem_reverse.mp hx)) h0
    have hdig : Nat.digits 10 n = [0] := by
      have := congrArg List.reverse this
      simpa using this.symm
    have := congrArg (Nat.ofDigits 10) hdig
    rw [Nat.ofDigits_digits] at this
    simp [Nat.ofDigits] at this
    exact hn this
  · exfalso
    rw [hn] at hd
    rw [natToDecimal_data_of_ne_zero m hm] at hd
    have h0 : ([0] : List Nat).map digitChar =
        (Nat.digits 10 m).reverse.map digitChar := by
      simpa [natToDecimal, digitChar] using hd.symm
    have := map_digitChar_inj [0] (Nat.digits 10 m).reverse (by simp)
      (fun x hx => Nat.digits_lt_base (by norm_num)
        (List.mem_reverse.mp hx)) h0
    have hdig : Nat.digits 10 m = [0] := by
      have := congrArg List.reverse this
      simpa using this.symm
    have := congrArg (Nat.ofDigits 10) hdig
    rw [Nat.ofDigits_digits] at this
    simp [Nat.ofDigits] at this
    exact hm this
  · rw [natToDecimal_data_of_ne_zero m hm,
      natToDecimal_data_of_ne_zero n hn] at hd
    have := map_digitChar_inj (Nat.digits 10 m).reverse
      (Nat.digits 10 n).reverse
      (fun x hx => Nat.digits_lt_base (by norm_num)
        (List.mem_reverse.mp hx))
      (fun x hx => Nat.digits_lt_base (by norm_num)
        (List.mem_reverse.mp hx)) hd
    have hrev := congrArg List.reverse this
    simp only [List.reverse_reverse] at hrev
    exact Nat.digits.injective 10 hrev

/-- The candidate slugs `orig, orig-1, orig-2, ...` are pairwise
distinct. -/
theorem slugCandidate_injective (orig : String) :
    Function.Injective (slugCandidate orig) := by
  intro i j h
  match i, j with
  | 0, 0 => rfl
  | 0, j + 1 =>
    exfalso
    have hd := congrArg String.data h
    simp only [slugCandidate, String.data_append] at hd
    have := congrArg List.length hd
    simp only [List.length_append, List.length_singleton] at this
    omega
  | i + 1, 0 =>
    exfalso
    have hd := congrArg String.data h
    simp only [slugCandidate, String.data_append] at hd
    have := congrArg List.length hd
    simp only [List.length_append, List.length_singleton] at this
    omega
  | i + 1, j + 1 =>
    have hd := congrArg String.data h
    simp only [slugCandidate, String.data_append,
      List.append_assoc, List.append_cancel_left_eq] at hd
    have : natToDecimal (i + 1) = natToDecimal (j + 1) := by
      apply String.ext
      simpa using hd
    rw [natToDecimal_inj (i + 1) (j + 1) this]

/-- Pigeonhole: among the first `existing.length + 1` candidate slugs at
least one is not already taken. -/
theorem exists_slugCandidate_not_mem (orig : String)
    (existing : List String) :
    ∃ k, k ≤ existing.length ∧ slugCandidate orig k ∉ existing := by
  by_contra hcon
  push_neg at hcon
  have hsub : ∀ x ∈ (List.range (existing.length + 1)).map
      (slugCandidate orig), x ∈ existing := by
    intro x hx
    obtain ⟨k, hk, rfl⟩ := List.mem_map.mp hx
    exact hcon k (Nat.lt_succ_iff.mp (List.mem_range.mp hk))
  have hnd : ((List.range (existing.length + 1)).map
      (slugCandidate orig)).Nodup :=
    (List.nodup_range _).map (slugCandidate_injective orig)
  have h1 : ((List.range (existing.length + 1)).map
      (slugCandidate orig)).toFinset.card = existing.length + 1 := by
    rw [List.toFinset_card_of_nodup hnd]
    simp
  have h2 : ((List.range (existing.length + 1)).map
      (slugCandidate orig)).toFinset ⊆ existing.toFinset := by
    intro x hx
    exact List.mem_toFinset.mpr (hsub x (List.mem_toFinset.mp hx))
  have h3 := Finset.card_le_card h2
  have h4 := existing.toFinset_card_le
  omega

/-- The bounded collision loop returns a slug outside `existing` as soon
as one of the candidates it can reach is free. -/
theorem uniquifySlugAux_not_mem (orig : String) (existing : List String) :
    ∀ fuel k, (∃ j, j < fuel ∧ slugCandidate orig (k + j) ∉ existing) →
      uniquifySlugAux orig existing fuel k ∉ existing := by
  intro fuel
  induction fuel with
  | zero =>
    intro k ⟨j, hj, _⟩
    exact absurd hj (Nat.not_lt_zero j)
  | succ fuel ih =>
    intro k ⟨j, hj, hfree⟩
    rw [uniquifySlugAux]
    by_cases hmem : slugCandidate orig k ∈ existing
    · rw [if_pos hmem]
      apply ih
      have hj0 : j ≠ 0 := by
        rintro rfl
        simp only [Nat.add_zero] at hfree
        exact hfree hmem
      refine ⟨j - 1, by omega, ?_⟩
      have harith : k + 1 + (j - 1) = k + j := by omega
      rw [harith]
      exact hfree
    · rw [if_neg hmem]
      exact hmem

/-- The slug-uniqueness loop of `create_blog_post` always returns a slug
not yet in the store. -/
theorem uniquifySlug_not_mem (orig : String) (existing : List String) :
    uniquifySlug orig existing ∉ existing := by
  obtain ⟨k, hk, hfree⟩ := exists_slugCandidate_not_mem orig existing
  refine uniquifySlugAux_not_mem orig existing (existing.length + 1) 0
    ⟨k, by omega, ?_⟩
  simpa using hfree

/-- One successful create preserves distinctness of the stored slugs. -/
theorem create_blog_post_slug_nodup (store : List Blog) (nid : Nat)
    (proto : Blog) (gs : Option String) (uuid : String)
    (h : (store.map fun b => b.slug).Nodup) :
    (((create_blog_post store nid proto gs uuid).2.1).map
      fun b => b.slug).Nodup := by
  have hfree := uniquifySlug_not_mem
    (match gs with
     | some s => if s ≠ "" then s else generate_slug proto.title uuid
     | none => generate_slug proto.title uuid)
    (store.map fun b => b.slug)
  simp only [create_blog_post, List.map_append, List.map_cons,
    List.map_nil]
  rw [List.nodup_append]
  refine ⟨h, List.nodup_singleton _, ?_⟩
  intro x hx hmem
  simp only [List.mem_singleton] at hmem
  rw [hmem] at hx
  exact hfree hx

/-- Slug distinctness is preserved along any sequence of creates. -/
theorem createMany_slug_nodup :
    ∀ (reqs : List (Blog × Option String × String)) (store : List Blog)
      (nid : Nat), (store.map fun b => b.slug).Nodup →
      (((createMany reqs (store, nid)).1).map fun b => b.slug).Nodup := by
  intro reqs
  induction reqs with
  | nil => intro store nid h; exact h
  | cons req rest ih =>
    intro store nid h
    obtain ⟨proto, gs, uuid⟩ := req
    rw [createMany]
    exact ih _ _ (create_blog_post_slug_nodup store nid proto gs uuid h)

/-- C4: after any sequence of successful `create_blog_post` calls
starting from the empty store, the stored blog slugs are pairwise
distinct: a freshly generated slug colliding with an existing one is
extended with `-1`, `-2`, ... until unique before the post is stored. -/
theorem createMany_slugs_distinct
    (reqs : List (Blog × Option String × String)) :
    (((createMany reqs ([], 1)).1).map fun b => b.slug).Nodup :=
  createMany_slug_nodup reqs [] 1 (by simp)

/-- A drop splits as its first `b` elements followed by the rest: page
`p`'s slice is followed exactly by the data the next pages see. -/
theorem drop_eq_take_append_drop {α : Type} (l : List α) (a b : Nat) :
    l.drop a = (l.drop a).take b ++ l.drop (a + b) := by
  conv_lhs => rw [← List.take_append_drop b (l.drop a)]
  rw [List.drop_drop]

/-- Concatenating the first `n` pages of size `ps` yields the first
`n * ps` elements. -/
theorem join_page_slices {α : Type} (ps : Nat) (l : List α) :
    ∀ n, ((List.range n).map fun i => (l.drop (i * ps)).take ps).flatten =
      l.take (n * ps) := by
  intro n
  induction n with
  | zero => simp
  | succ n ih =>
    rw [List.range_succ, List.map_append, List.flatten_append]
    simp only [List.map_cons, List.map_nil, List.flatten_cons,
      List.flatten_nil, List.append_nil]
    rw [ih, Nat.succ_mul, List.take_add]

/-- The stable keyed sort does not change the number of blogs. -/
theorem sortBlogs_length (sortBy sortOrder : String) (blogs : List Blog) :
    (sortBlogs sortBy sortOrder blogs).length = blogs.length := by
  simp only [sortBlogs]
  split <;> split <;> exact List.length_mergeSort _

/-- The ceiling page count covers all items. -/
theorem pyCeil_mul_ge (t ps : Nat) (hps : 1 ≤ ps) : t ≤ pyCeil t ps * ps := by
  have hdm := Nat.div_add_mod (t + ps - 1) ps
  have hmod : (t + ps - 1) % ps < ps := Nat.mod_lt _ (by omega)
  unfold pyCeil
  rw [Nat.mul_comm]
  generalize hA : ps * ((t + ps - 1) / ps) = A at hdm ⊢
  generalize hr : (t + ps - 1) % ps = r at hdm hmod
  omega

/-- The ceiling page count is the least page count covering all items. -/
theorem pyCeil_le_of_le (t ps m : Nat) (hps : 1 ≤ ps) (h : t ≤ m * ps) :
    pyCeil t ps ≤ m := by
  have h1 : t + ps - 1 < (m + 1) * ps := by
    have hmul : (m + 1) * ps = m * ps + ps := by ring
    rw [hmul]
    generalize m * ps = A at h ⊢
    omega
  have h2 := (Nat.div_lt_iff_lt_mul (show 0 < ps by omega)).mpr h1
  unfold pyCeil
  omega

/-- C6: `get_blog_posts` returns exactly the Python slice
`[(page-1)*pageSize : (page-1)*pageSize + pageSize]` of the filtered and
sorted blog list; `total` is the filtered-list length; `totalPages` is
the exact ceiling of `total / pageSize` (it covers all items and no
smaller page count does); the slices of pages `1..totalPages` are
contiguous, pairwise non-overlapping and together cover the whole list
(their in-order concatenation is the whole list, and each page's slice is
followed immediately by the data of the subsequent pages). -/
theorem get_blog_posts_pagination (store : List Blog) (params : BlogQuery)
    (hpage : 1 ≤ params.page) (hps : 1 ≤ params.pageSize)
    (hps100 : params.pageSize ≤ 100) :
    (get_blog_posts store params).blogs =
      ((sortBlogs params.sortBy params.sortOrder
          (store.filter (matchesFilters params))).drop
        ((params.page - 1) * params.pageSize)).take params.pageSize ∧
    (get_blog_posts store params).total =
      (store.filter (matchesFilters params)).length ∧
    (get_blog_posts store params).total ≤
      (get_blog_posts store params).totalPages * params.pageSize ∧
    (∀ m, (get_blog_posts store params).total ≤ m * params.pageSize →
      (get_blog_posts store params).totalPages ≤ m) ∧
    ((List.range (get_blog_posts store params).totalPages).map
        fun i => ((sortBlogs params.sortBy params.sortOrder
            (store.filter (matchesFilters params))).drop
          (i * params.pageSize)).take params.pageSize).flatten =
      sortBlogs params.sortBy params.sortOrder
        (store.filter (matchesFilters params)) ∧
    (∀ p, 1 ≤ p →
      (sortBlogs params.sortBy params.sortOrder
          (store.filter (matchesFilters params))).drop
        ((p - 1) * params.pageSize) =
      ((sortBlogs params.sortBy params.sortOrder
          (store.filter (matchesFilters params))).drop
        ((p - 1) * params.pageSize)).take params.pageSize ++
      (sortBlogs params.sortBy params.sortOrder
          (store.filter (matchesFilters params))).drop
        (p * params.pageSize)) := by
  refine ⟨rfl, ?_, ?_, ?_, ?_, ?_⟩
  · exact sortBlogs_length _ _ _
  · exact pyCeil_mul_ge _ _ hps
  · intro m hm
    exact pyCeil_le_of_le _ _ m hps hm
  · rw [join_page_slices]
    apply List.take_of_length_le
    rw [sortBlogs_length]
    have := pyCeil_mul_ge (store.filter (matchesFilters params)).length
      params.pageSize hps
    calc (store.filter (matchesFilters params)).length ≤
        pyCeil (store.filter (matchesFilters params)).length
          params.pageSize * params.pageSize := this
      _ = (get_blog_posts store params).totalPages * params.pageSize := by
        show _ = pyCeil (sortBlogs params.sortBy params.sortOrder
          (store.filter (matchesFilters params))).length
            params.pageSize * params.pageSize
        rw [sortBlogs_length]
  · intro p hp
    have harith : (p - 1) * params.pageSize + params.pageSize =
        p * params.pageSize := by
      have : p - 1 + 1 = p := by omega
      calc (p - 1) * params.pageSize + params.pageSize
          = (p - 1 + 1) * params.pageSize := by ring
        _ = p * params.pageSize := by rw [this]
    rw [← harith]
    exact drop_eq_take_append_drop _ _ _

/-- Witness for C6 on a concrete two-post store with page 2 of size 1:
the returned page is the second element of the filtered sorted list, and
both pages together are the whole list. -/
theorem get_blog_posts_pagination_witness :
    (get_blog_posts
      [{ id := 1, slug := "a", title := "A", excerpt := "", content := "", category := "", tags := "", agentType := "", published := true, featured := false, views := 0, likes := 0, createdAt := 3, author := "Developer" },
       { id := 2, slug := "b", title := "B", excerpt := "", content := "", category := "", tags := "", agentType := "", published := true, featured := false, views := 0, likes := 0, createdAt := 5, author := "Developer" }]
      { q := none, category := none, tags := none, agentType := none, published := some true, featured := none, page := 2, pageSize := 1, sortBy := "createdAt", sortOrder := "asc" }).blogs =
      ((sortBlogs "createdAt" "asc"
        (List.filter (matchesFilters { q := none, category := none, tags := none, agentType := none, published := some true, featured := none, page := 2, pageSize := 1, sortBy := "createdAt", sortOrder := "asc" })
          [{ id := 1, slug := "a", title := "A", excerpt := "", content := "", category := "", tags := "", agentType := "", published := true, featured := false, views := 0, likes := 0, createdAt := 3, author := "Developer" },
           { id := 2, slug := "b", title := "B", excerpt := "", content := "", category := "", tags := "", agentType := "", published := true, featured := false, views := 0, likes := 0, createdAt := 5, author := "Developer" }])).drop 1).take 1 ∧
    (get_blog_posts
      [{ id := 1, slug := "a", title := "A", excerpt := "", content := "", category := "", tags := "", agentType := "", published := true, featured := false, views := 0, likes := 0, createdAt := 3, author := "Developer" },
       { id := 2, slug := "b", title := "B", excerpt := "", content := "", category := "", tags := "", agentType := "", published := true, featured := false, views := 0, likes := 0, createdAt := 5, author := "Developer" }]
      { q := none, category := none, tags := none, agentType := none, published := some true, featured := none, page := 2, pageSize := 1, sortBy := "createdAt", sortOrder := "asc" }).total = 2 := by
  have h := get_blog_posts_pagination
    [{ id := 1, slug := "a", title := "A", excerpt := "", content := "", category := "", tags := "", agentType := "", published := true, featured := false, views := 0, likes := 0, createdAt := 3, author := "Developer" },
     { id := 2, slug := "b", title := "B", excerpt := "", content := "", category := "", tags := "", agentType := "", published := true, featured := false, views := 0, likes := 0, createdAt := 5, author := "Developer" }]
    { q := none, category := none, tags := none, agentType := none, published := some true, featured := none, page := 2, pageSize := 1, sortBy := "createdAt", sortOrder := "asc" }
    (by decide) (by decide) (by decide)
  refine ⟨?_, ?_⟩
  · simpa using h.1
  · rw [h.2.1]
    decide

/-- Scanning a whitespace-free word just accumulates it (reversed). -/
theorem pySplitAux_word :
    ∀ (w rest acc : List Char), (∀ c ∈ w, c.isWhitespace = false) →
      pySplitAux (w ++ rest) acc = pySplitAux rest (w.reverse ++ acc) := by
  intro w
  induction w with
  | nil => intro rest acc _; simp [pySplitAux]
  | cons c w ih =>
    intro rest acc hw
    have hc : c.isWhitespace = false := hw c (List.mem_cons_self c w)
    have e1 : (c :: w) ++ rest = c :: (w ++ rest) := rfl
    rw [e1, pySplitAux, if_neg (by simp [hc])]
    rw [ih rest (c :: acc) fun x hx => hw x (List.mem_cons_of_mem c hx)]
    simp [List.append_assoc]

/-- A leading space is skipped when nothing is accumulated yet. -/
theorem pySplitAux_space (rest : List Char) :
    pySplitAux (' ' :: rest) [] = pySplitAux rest [] := by
  simp [pySplitAux]

/-- Splitting on whitespace is a left inverse of joining nonempty
whitespace-free words with single spaces. -/
theorem pySplit_joinWords :
    ∀ ws : List (List Char),
      (∀ w ∈ ws, w ≠ [] ∧ ∀ c ∈ w, c.isWhitespace = false) →
      pySplitWords (joinWords ws) = ws := by
  intro ws
  induction ws with
  | nil => intro _; rfl
  | cons w ws ih =>
    intro hgood
    have hw := hgood w (List.mem_cons_self w ws)
    cases ws with
    | nil =>
      show pySplitAux (joinWords [w]) [] = [w]
      have : joinWords [w] = w := rfl
      rw [this]
      have := pySplitAux_word w [] [] hw.2
      simp only [List.append_nil] at this
      rw [this]
      simp only [pySplitAux, List.append_nil]
      rw [if_neg (by simp [hw.1]), List.reverse_reverse]
    | cons w' ws' =>
      show pySplitAux (joinWords (w :: w' :: ws')) [] = w :: w' :: ws'
      have hjoin : joinWords (w :: w' :: ws') =
          w ++ ' ' :: joinWords (w' :: ws') := rfl
      rw [hjoin]
      have h1 := pySplitAux_word w (' ' :: joinWords (w' :: ws')) [] hw.2
      simp only [List.append_nil] at h1
      rw [h1]
      simp only [pySplitAux, Char.isWhitespace]
      rw [if_pos (by decide), if_neg (by simp [hw.1]),
        List.reverse_reverse]
      have := ih fun x hx => hgood x (List.mem_cons_of_mem w hx)
      rw [show pySplitAux (joinWords (w' :: ws')) [] =
        pySplitWords (joinWords (w' :: ws')) from rfl, this]

/-- Every word produced by `response.split()` is nonempty and contains no
whitespace. -/
theorem pySplitAux_good :
    ∀ (s acc : List Char), (∀ c ∈ acc, c.isWhitespace = false) →
      ∀ w ∈ pySplitAux s acc, w ≠ [] ∧ ∀ c ∈ w, c.isWhitespace = false := by
  intro s
  induction s with
  | nil =>
    intro acc hacc w hw
    simp only [pySplitAux] at hw
    by_cases hae : acc.isEmpty
    · rw [if_pos hae] at hw
      exact absurd hw (List.not_mem_nil w)
    · rw [if_neg hae] at hw
      simp only [List.mem_singleton] at hw
      subst hw
      constructor
      · simp only [ne_eq, List.reverse_eq_nil_iff]
        intro h
        rw [h] at hae
        exact hae rfl
      · intro c hc
        exact hacc c (List.mem_reverse.mp hc)
  | cons c s ih =>
    intro acc hacc w hw
    simp only [pySplitAux] at hw
    by_cases hws : c.isWhitespace
    · rw [if_pos hws] at hw
      by_cases hae : acc.isEmpty
      · rw [if_pos hae] at hw
        exact ih [] (by simp) w hw
      · rw [if_neg hae] at hw
        rcases List.mem_cons.mp hw with h | h
        · subst h
          constructor
          · simp only [ne_eq, List.reverse_eq_nil_iff]
            intro h
            rw [h] at hae
            exact hae rfl
          · intro x hx
            exact hacc x (List.mem_reverse.mp hx)
        · exact ih [] (by simp) w h
    · rw [if_neg hws] at hw
      refine ih (c :: acc) ?_ w hw
      intro x hx
      rcases List.mem_cons.mp hx with h | h
      · rw [h]; exact Bool.eq_false_iff.mpr hws
      · exact hacc x h

/-- The word chunks are nonempty, at most five words long, flatten back
to the word list, and only contain words of the original list. -/
theorem chunksOf5_spec {α : Type} :
    ∀ l : List α,
      (∀ c ∈ chunksOf5 l, c ≠ [] ∧ c.length ≤ 5 ∧ ∀ w ∈ c, w ∈ l) ∧
      (chunksOf5 l).flatten = l := by
  intro l
  induction l using chunksOf5.induct with
  | case1 =>
    constructor
    · intro c hc
      rw [chunksOf5] at hc
      exact absurd hc (List.not_mem_nil c)
    · rw [chunksOf5]
      rfl
  | case2 x xs ih =>
    rw [chunksOf5]
    constructor
    · intro c hc
      rcases List.mem_cons.mp hc with h | h
      · subst h
        refine ⟨by simp, List.length_take_le _ _, ?_⟩
        intro w hw
        exact List.take_subset _ _ hw
      · obtain ⟨h1, h2, h3⟩ := ih.1 c h
        exact ⟨h1, h2, fun w hw => List.drop_subset _ _ (h3 w hw)⟩
    · rw [List.flatten_cons, ih.2, List.take_append_drop]

/-- Joining a split word list distributes over append, inserting the
single separating space. -/
theorem joinWords_append :
    ∀ (a b : List (List Char)), a ≠ [] →
      joinWords (a ++ b) =
        joinWords a ++ (if b = [] then [] else ' ' :: joinWords b) := by
  intro a
  induction a with
  | nil => intro b h; exact absurd rfl h
  | cons w a ih =>
    intro b _
    cases a with
    | nil =>
      cases b with
      | nil => simp [joinWords]
      | cons x bs => rfl
    | cons w' a' =>
      have ihb := ih b (by simp)
      have e1 : (w :: w' :: a') ++ b = w :: ((w' :: a') ++ b) := rfl
      have e2 : (w' :: a') ++ b = w' :: (a' ++ b) := rfl
      rw [e1, e2]
      have e3 : joinWords (w :: w' :: (a' ++ b)) =
          w ++ ' ' :: joinWords (w' :: (a' ++ b)) := rfl
      have e4 : joinWords (w :: w' :: a') =
          w ++ ' ' :: joinWords (w' :: a') := rfl
      rw [e3, e4, ← e2, ihb]
      simp [List.append_assoc]

/-- Flattening the space-prefixed later chunks produces a single space
followed by the join of the remaining words. -/
theorem flatten_spaced_chunks :
    ∀ l : List (List Char),
      ((chunksOf5 l).map fun c => ' ' :: joinWords c).flatten =
        if l = [] then [] else ' ' :: joinWords l := by
  intro l
  induction l using chunksOf5.induct with
  | case1 => rw [chunksOf5]; rfl
  | case2 x xs ih =>
    rw [chunksOf5]
    simp only [List.map_cons, List.flatten_cons]
    rw [ih]
    have htake : (x :: xs).take 5 ≠ [] := by simp
    have hj := joinWords_append ((x :: xs).take 5) ((x :: xs).drop 5) htake
    rw [List.take_append_drop] at hj
    rw [if_neg (show ¬(x :: xs = []) by simp), hj]
    simp [List.cons_append]

/-- Concatenating all `content` fields yields the single-space join of
the split words. -/
theorem contentChunks_flatten :
    ∀ ws : List (List Char),
      (contentChunks ws).flatten = joinWords ws := by
  intro ws
  cases ws with
  | nil =>
    unfold contentChunks
    rw [chunksOf5]
    rfl
  | cons x xs =>
    unfold contentChunks
    rw [chunksOf5]
    simp only [List.flatten_cons]
    rw [flatten_spaced_chunks]
    have htake : (x :: xs).take 5 ≠ [] := by simp
    have hj := joinWords_append ((x :: xs).take 5) ((x :: xs).drop 5) htake
    rw [List.take_append_drop] at hj
    rw [hj]

/-- Each content chunk carries at most five words: splitting its text
recovers exactly the (at most five) words of the underlying chunk. -/
theorem contentChunks_words_le (ws : List (List Char))
    (hgood : ∀ w ∈ ws, w ≠ [] ∧ ∀ c ∈ w, c.isWhitespace = false) :
    ∀ t ∈ contentChunks ws, (pySplitWords t).length ≤ 5 := by
  intro t ht
  unfold contentChunks at ht
  cases hch : chunksOf5 ws with
  | nil =>
    rw [hch] at ht
    exact absurd ht (List.not_mem_nil t)
  | cons c cs =>
    rw [hch] at ht
    have hspec := (chunksOf5_spec ws).1
    rcases List.mem_cons.mp ht with h | h
    · have hc : c ∈ chunksOf5 ws := by
        rw [hch]; exact List.mem_cons_self c cs
      obtain ⟨hne, hlen, hsub⟩ := hspec c hc
      have hcgood : ∀ w ∈ c, w ≠ [] ∧ ∀ ch ∈ w, ch.isWhitespace = false :=
        fun w hw => hgood w (hsub w hw)
      rw [h, pySplit_joinWords c hcgood]
      exact hlen
    · obtain ⟨c', hc', rfl⟩ := List.mem_map.mp h
      have hcc : c' ∈ chunksOf5 ws := by
        rw [hch]; exact List.mem_cons_of_mem c hc'
      obtain ⟨hne, hlen, hsub⟩ := hspec c' hcc
      have hcgood : ∀ w ∈ c', w ≠ [] ∧ ∀ ch ∈ w, ch.isWhitespace = false :=
        fun w hw => hgood w (hsub w hw)
      calc (pySplitWords (' ' :: joinWords c')).length
          = (pySplitWords (joinWords c')).length := by
            unfold pySplitWords
            rw [pySplitAux_space]
        _ = c'.length := by rw [pySplit_joinWords c' hcgood]
        _ ≤ 5 := hlen

/-- C9: the stream of `stream_text_response` begins with exactly one
`start` chunk (everything after it is a content chunk); concatenating the
`content` fields of the content chunks in order yields the words of the
response joined by single spaces; each content chunk carries at most five
words; and when the response is already a single-space join of nonempty
whitespace-free words, that concatenation reconstructs the response
exactly. -/
theorem stream_text_response_spec (response : String) :
    (stream_text_response response).head? = some StreamChunk.start ∧
    (∀ c ∈ (stream_text_response response).tail, c ≠ StreamChunk.start) ∧
    (contentChunks (pySplitWords response.data)).flatten =
      joinWords (pySplitWords response.data) ∧
    (∀ t, StreamChunk.content t ∈ (stream_text_response response).tail →
      (pySplitWords t).length ≤ 5) ∧
    (∀ ws : List (List Char),
      (∀ w ∈ ws, w ≠ [] ∧ ∀ c ∈ w, c.isWhitespace = false) →
      response.data = joinWords ws →
      (contentChunks (pySplitWords response.data)).flatten =
        response.data) := by
  refine ⟨rfl, ?_, contentChunks_flatten _, ?_, ?_⟩
  · intro c hc
    simp only [stream_text_response, List.tail_cons, List.mem_map] at hc
    obtain ⟨t, _, rfl⟩ := hc
    simp
  · intro t ht
    simp only [stream_text_response, List.tail_cons, List.mem_map] at ht
    obtain ⟨t', ht', heq⟩ := ht
    have ht2 : t' = t := by injection heq
    subst ht2
    have hgood := pySplitAux_good response.data [] (by simp)
    exact contentChunks_words_le (pySplitWords response.data) hgood t' ht'
  · intro ws hws heq
    rw [contentChunks_flatten, heq, pySplit_joinWords ws hws]

/-- Witness for C9 on the concrete response
`hello world how are you doing` (six single-spaced words, hence one
five-word chunk and one one-word chunk): the concatenated content chunks
reconstruct the response exactly. -/
theorem stream_text_response_spec_witness :
    ("hello world how are you doing" : String).data =
      joinWords ["hello".data, "world".data, "how".data, "are".data,
        "you".data, "doing".data] ∧
    (contentChunks (pySplitWords
        ("hello world how are you doing" : String).data)).flatten =
      ("hello world how are you doing" : String).data := by
  have h := (stream_text_response_spec "hello world how are you doing").2.2.2.2
    ["hello".data, "world".data, "how".data, "are".data, "you".data,
     "doing".data]
    (by decide) (by decide)
  exact ⟨by decide, h⟩

end Agentify
